import Mathlib

/-!
Verification of the process-launch and job-control core (`postfork.cpp`) of an
interactive shell.  The C functions are shallowly embedded as pure Lean
functions; every OS call (close, open, dup2, fork, setpgid, getpgid, getpgrp,
tcgetpgrp, write_loop, access, terminal_give_to_job) is resolved through an
explicit environment record so that each code path of the C source is a
computable branch of the Lean definition.  Diagnostic logging is modelled only
where a claim depends on it (`do_builtin_io`).
-/

namespace Postfork

/- errno values (Linux numbering), used literally where the C code compares
   against the corresponding symbolic constant. -/
def EPERM : Int := 1
def ENOENT : Int := 2
def EINTR : Int := 4
def E2BIG : Int := 7
def ENOEXEC : Int := 8
def EAGAIN : Int := 11
def ENOMEM : Int := 12
def EACCES : Int := 13
def EEXIST : Int := 17
def EPIPE : Int := 32

/-- `#define FORK_LAPS 5` — number of times to try fork() before giving up. -/
def FORK_LAPS : Nat := 5

/-- The redirection data model (`io_data_t` and its subclasses in io.h).
`IO_BUFFER` and `IO_PIPE` are handled identically by this core (they differ
only in a log message), so both are represented by `pipe` with an `isBuffer`
tag recording which mode it was. -/
inductive IoData where
  /-- `IO_CLOSE`: close the target fd. -/
  | close (fd : Int)
  /-- `IO_FILE`: open `filename` with `flags` onto the target fd. -/
  | file (fd : Int) (filename : String) (flags : Nat)
  /-- `IO_FD`: duplicate `old_fd` onto the target fd. -/
  | fdDup (fd : Int) (old_fd : Int)
  /-- `IO_PIPE` / `IO_BUFFER`: `pipe_fd` pair `(pfd0, pfd1)`, `is_input` flag. -/
  | pipe (fd : Int) (pfd0 pfd1 : Int) (is_input : Bool) (isBuffer : Bool)
deriving DecidableEq

/-- Whether `O_EXCL` is among the open flags (bit 7 of the Linux flag word,
value 0o200 = 128). Only used for the logging branch, which is elided. -/
def hasOexcl (flags : Nat) : Bool := flags / 128 % 2 = 1

/-- Results of the fd-table syscalls made by `handle_child_io`, indexed by the
position of the chain entry making the call (two entries at different
positions may observe different results). `openRes` is the descriptor
returned by `open` (negative = failure); `dup2Res src tgt` is the raw return
of `dup2` (`tgt` on success, `-1` on failure); `closeRes` is the return of
`close`. -/
structure ChildIoEnv where
  closeRes : Nat → Int → Int
  openRes : Nat → Int
  dup2Res : Nat → Int → Int → Int

/-- One recorded syscall of the fork-path applier, with its observed result.
`exec_close` (a retry-on-EINTR close defined in exec.cpp) is recorded as a
`closeFd` with result 0. -/
inductive SysEff where
  | closeFd (fd : Int) (res : Int)
  | openFile (filename : String) (flags : Nat) (res : Int)
  | dup2 (src tgt : Int) (res : Int)
deriving DecidableEq

/-- `handle_child_io` (postfork.cpp): walk the chain in order, performing the
redirections; return 0 on success, -1 on the first fatal failure, together
with the trace of syscalls performed.  The `IO_FD`-with-equal-fds skip check
appears before the switch in the C source; here it sits in the `fdDup` arm,
the only arm it can fire in. -/
def handle_child_io_aux (env : ChildIoEnv) : Nat → List IoData → Int × List SysEff
  | _, [] => (0, [])
  | idx, io :: rest =>
    match io with
    | .close fd =>
      -- failure of close is logged but non-fatal: the chain continues.
      let rt := handle_child_io_aux env (idx + 1) rest
      (rt.fst, SysEff.closeFd fd (env.closeRes idx fd) :: rt.snd)
    | .file fd filename flags =>
      let tmp := env.openRes idx
      if tmp < 0 then
        -- open failed: log (NOCLOB_ERROR if O_EXCL and EEXIST, else
        -- FILE_ERROR) and abort the apply.
        (-1, [SysEff.openFile filename flags tmp])
      else if tmp ≠ fd then
        -- precautionary close of the target (result ignored), then dup2.
        let c := env.closeRes idx fd
        let d := env.dup2Res idx tmp fd
        if d = -1 then
          (-1, [SysEff.openFile filename flags tmp, SysEff.closeFd fd c,
                SysEff.dup2 tmp fd d, SysEff.closeFd tmp 0])
        else
          let rt := handle_child_io_aux env (idx + 1) rest
          (rt.fst, SysEff.openFile filename flags tmp :: SysEff.closeFd fd c ::
              SysEff.dup2 tmp fd d :: SysEff.closeFd tmp 0 :: rt.snd)
      else
        let rt := handle_child_io_aux env (idx + 1) rest
        (rt.fst, SysEff.openFile filename flags tmp :: rt.snd)
    | .fdDup fd old_fd =>
      if fd = old_fd then
        -- skip entirely: no close, no duplication.
        handle_child_io_aux env (idx + 1) rest
      else
        let c := env.closeRes idx fd
        let d := env.dup2Res idx old_fd fd
        if d = -1 then (-1, [SysEff.closeFd fd c, SysEff.dup2 old_fd fd d])
        else
          let rt := handle_child_io_aux env (idx + 1) rest
          (rt.fst, SysEff.closeFd fd c :: SysEff.dup2 old_fd fd d :: rt.snd)
    | .pipe fd pfd0 pfd1 is_input _ =>
      -- write_pipe_idx = is_input ? 0 : 1; duplicate that half onto fd.
      let fromFd := if is_input then pfd0 else pfd1
      let d := env.dup2Res idx fromFd fd
      if d ≠ fd then (-1, [SysEff.dup2 fromFd fd d])
      else
        -- exec_close both halves of the pair when they are valid fds.
        let closes := (if 0 ≤ pfd0 then [SysEff.closeFd pfd0 0] else []) ++
                      (if 0 ≤ pfd1 then [SysEff.closeFd pfd1 0] else [])
        let rt := handle_child_io_aux env (idx + 1) rest
        (rt.fst, SysEff.dup2 fromFd fd d :: (closes ++ rt.snd))

/-- Entry point of the applier: start at chain position 0. -/
def handle_child_io (env : ChildIoEnv) (io_chain : List IoData) : Int × List SysEff :=
  handle_child_io_aux env 0 io_chain

/-- A primitive descriptor-table action: the common semantic currency of the
fork-path applier and the posix_spawn file-action list. -/
inductive FdAction where
  | close (fd : Int)
  | openA (fd : Int) (filename : String) (flags : Nat)
  | dup2 (src tgt : Int)
deriving DecidableEq

/-- The file actions emitted by `fork_actions_make_spawn_properties` for one
chain entry (success path: every `posix_spawn_file_actions_add*` returns 0).
The `IO_FD`-with-equal-fds skip check appears before the switch in the C
source; here it sits in the `fdDup` arm, the only arm it can fire in. -/
def spawn_entry_actions : IoData → List FdAction
  | .close fd => [FdAction.close fd]
  | .file fd filename flags => [FdAction.openA fd filename flags]
  | .fdDup fd old_fd => if fd = old_fd then [] else [FdAction.dup2 old_fd fd]
  | .pipe fd pfd0 pfd1 is_input _ =>
    -- write_pipe_idx = is_input ? 0 : 1; adddup2 from that half, then:
    -- if write_pipe_idx > 0 close both pipe fds, else close only pipe_fd[0].
    let fromFd := if is_input then pfd0 else pfd1
    FdAction.dup2 fromFd fd ::
      (if is_input then [FdAction.close pfd0]
       else [FdAction.close pfd0, FdAction.close pfd1])

/-- The full file-action list built by `fork_actions_make_spawn_properties`
from the io chain (loop at the end of the function, success path). -/
def spawn_file_actions : List IoData → List FdAction
  | [] => []
  | io :: rest => spawn_entry_actions io ++ spawn_file_actions rest

/-- What a descriptor slot refers to: either a file opened by the chain, or
whatever object was initially behind some descriptor. -/
inductive FdObj where
  | fileObj (filename : String) (flags : Nat)
  | origObj (fd : Int)
deriving DecidableEq

/-- A descriptor table maps fd numbers to the object behind them (or `none`
when closed). -/
abbrev FdTable : Type := Int → Option FdObj

/-- Effect of one primitive action on a descriptor table. -/
def applyAct (a : FdAction) (t : FdTable) : FdTable :=
  match a with
  | .close fd => fun x => if x = fd then none else t x
  | .openA fd filename flags =>
      fun x => if x = fd then some (FdObj.fileObj filename flags) else t x
  | .dup2 src tgt => fun x => if x = tgt then t src else t x

/-- Effect of a sequence of primitive actions, applied in order. -/
def applyActs (acts : List FdAction) (t : FdTable) : FdTable :=
  acts.foldl (fun s a => applyAct a s) t

/-- Successful-syscall trace of the fork path, reduced to its descriptor-table
effects: a failed close has no effect, a successful open places the file at
the returned descriptor, a successful dup2 copies the source slot. -/
def effectsOfTrace : List SysEff → List FdAction
  | [] => []
  | .closeFd fd res :: t =>
      (if res = 0 then [FdAction.close fd] else []) ++ effectsOfTrace t
  | .openFile filename flags res :: t =>
      (if 0 ≤ res then [FdAction.openA res filename flags] else []) ++ effectsOfTrace t
  | .dup2 src tgt res :: t =>
      (if res = tgt then [FdAction.dup2 src tgt] else []) ++ effectsOfTrace t

/-- The environment in which every syscall of the applier succeeds; `open`
returns the fresh descriptor 1000 (a slot assumed unused by the chain). -/
def happyEnv : ChildIoEnv :=
  { closeRes := fun _ _ => 0
    openRes := fun _ => 1000
    dup2Res := fun _ _ tgt => tgt }

/-- Descriptor-table effects of `handle_child_io` when every syscall
succeeds. -/
def fork_effects (io_chain : List IoData) : List FdAction :=
  effectsOfTrace (handle_child_io happyEnv io_chain).snd

/-- The descriptor numbers a chain entry mentions (targets and sources). -/
def entryFds : IoData → List Int
  | .close fd => [fd]
  | .file fd _ _ => [fd]
  | .fdDup fd old_fd => [fd, old_fd]
  | .pipe fd pfd0 pfd1 _ _ => [fd, pfd0, pfd1]

/-- Chain entries on which the spawn plan and the fork path are compared:
every mentioned descriptor is a valid number below the fresh temporary slot
1000 used by `happyEnv`, and pipe entries are output ends (input ends are
where the two paths genuinely diverge, see the C1 counterexample). -/
def goodEntry (e : IoData) : Bool :=
  (entryFds e).all (fun x => decide (0 ≤ x ∧ x < 1000)) &&
    (match e with
     | .pipe _ _ _ is_input _ => !is_input
     | _ => true)

/-- `job_t`: the fields of the job structure consulted by this core.  A pgid
of `-2` is the "unassigned" sentinel of new jobs.  The three booleans are the
`JOB_CONTROL`, `JOB_TERMINAL` and `JOB_FOREGROUND` flags. -/
structure Job where
  pgid : Int
  job_control : Bool
  terminal : Bool
  foreground : Bool
  job_id : Int
deriving DecidableEq

/-- `process_t`: only the pid is consulted by this core. -/
structure Process where
  pid : Int
deriving DecidableEq

/-- OS view consumed by `child_set_group`: the result and errno of the n-th
`setpgid` call of this invocation, the `getpgid` table and the current
process group (`getpgrp`). -/
structure ChildGroupEnv where
  setpgid : Nat → Int × Int
  getpgid : Int → Int
  getpgrp : Int

/-- Result of `child_set_group`: the updated job, the boolean return value,
and how many `setpgid` calls were made (0 = no join attempted). -/
structure ChildSetGroupResult where
  job : Job
  retval : Bool
  setpgidCalls : Nat
deriving DecidableEq

/-- The `while (failure == -1 && (errno == EPERM || errno == EINTR))` retry
loop around `setpgid` in `child_set_group`.  The C loop is bounded only by
eventual kernel consistency, so the embedding carries explicit fuel and
returns `none` when the environment never leaves the transient-error regime
within the fuel; on exit it returns the final `setpgid` result and the number
of calls made. -/
def setpgid_retry (env : ChildGroupEnv) : Nat → Nat → Option (Int × Nat)
  | _, 0 => none
  | attempt, fuel + 1 =>
    let re := env.setpgid attempt
    if re.fst = -1 ∧ (re.snd = EPERM ∨ re.snd = EINTR) then
      setpgid_retry env (attempt + 1) fuel
    else some (re.fst, attempt + 1)

/-- `child_set_group` (postfork.cpp): run by the child to set its own process
group.  Under `JOB_CONTROL`, an unassigned pgid (-2) is first replaced by the
child's own pid, then the child joins that group, retrying on EPERM/EINTR;
after the loop, failure is reported only when the last `setpgid` failed *and*
`getpgid` disagrees with the job's pgid.  Without `JOB_CONTROL`, the current
process group is recorded and no join is attempted. -/
def child_set_group (env : ChildGroupEnv) (fuel : Nat) (j : Job) (p : Process) :
    Option ChildSetGroupResult :=
  if j.job_control then
    let j2 := if j.pgid = -2 then { j with pgid := p.pid } else j
    match setpgid_retry env 0 fuel with
    | none => none
    | some (res, calls) =>
      let failure := res ≠ 0 ∧ env.getpgid p.pid ≠ j2.pgid
      some { job := j2, retval := if failure then false else true, setpgidCalls := calls }
  else
    some { job := { j with pgid := env.getpgrp }, retval := true, setpgidCalls := 0 }

/-- OS view consumed by `set_child_group`: the current process group, the
terminal's foreground process group (`tcgetpgrp(STDIN_FILENO)`), and the
result of the external `terminal_give_to_job` collaborator when invoked. -/
structure ParentGroupEnv where
  getpgrp : Int
  tcgetpgrp : Int
  terminal_give_to_job : Bool

/-- Result of `set_child_group`: the updated job, the boolean return value,
and whether `terminal_give_to_job` was invoked. -/
structure SetChildGroupResult where
  job : Job
  retval : Bool
  transferCalled : Bool
deriving DecidableEq

/-- `set_child_group` (postfork.cpp): run by the parent.  Mirrors the
first-process-becomes-leader pgid assignment, then, for a foreground job on
the terminal, hands the terminal to the job's group unless the terminal
already belongs to it. -/
def set_child_group (env : ParentGroupEnv) (j : Job) (child_pid : Int) :
    SetChildGroupResult :=
  let j2 :=
    if j.job_control then
      if j.pgid = -2 then { j with pgid := child_pid } else j
    else { j with pgid := env.getpgrp }
  if j2.terminal ∧ j2.foreground then
    if env.tcgetpgrp = j2.pgid then
      -- Process group already has control of the terminal: no handoff.
      { job := j2, retval := true, transferCalled := false }
    else
      { job := j2, retval := env.terminal_give_to_job, transferCalled := true }
  else
    { job := j2, retval := true, transferCalled := false }

/-- Outcome of `setup_child_process`: `exited = some s` means the child was
terminated through `exit_without_destructors(s)` (the function never returns
to the caller); otherwise `ret` is the returned value and `signalsReset`
records whether `signal_reset_handlers()` ran. -/
structure SetupOutcome where
  exited : Option Int
  ret : Int
  signalsReset : Bool
deriving DecidableEq

/-- `setup_child_process` (postfork.cpp): apply the io chain; when it fails
with a non-null process context, exit the child immediately through
`exit_without_destructors(1)`; otherwise reset the signal handlers only on
success and return 0 on success, -1 on failure. -/
def setup_child_process (env : ChildIoEnv) (p : Option Process)
    (io_chain : List IoData) : SetupOutcome :=
  let ok := (handle_child_io env io_chain).fst = 0
  if p.isSome ∧ ¬ ok then
    { exited := some 1, ret := 0, signalsReset := false }
  else
    { exited := none, ret := if ok then 0 else -1, signalsReset := ok }

/-- OS view consumed by `execute_fork`: result and errno of the i-th `fork`
call of this invocation. -/
structure ForkEnv where
  res : Nat → Int
  errno : Nat → Int

/-- Outcome of `execute_fork`: either a pid returned to the caller, or a
whole-shell `FATAL_EXIT` after the diagnostic; both record how many
`nanosleep` calls were made. -/
inductive ForkOutcome where
  | ret (pid : Int) (sleeps : Nat)
  | fatalExit (sleeps : Nat)
deriving DecidableEq

/-- The `for (i = 0; i < FORK_LAPS; i++)` retry loop of `execute_fork`:
return a non-negative fork result immediately; break (and die) on any
non-EAGAIN failure; on EAGAIN sleep unless this is the final lap, and retry.
Falling off the loop reports the error and terminates the shell. -/
def fork_retry_loop (env : ForkEnv) (i sleeps : Nat) : ForkOutcome :=
  if _h : i < FORK_LAPS then
    if 0 ≤ env.res i then ForkOutcome.ret (env.res i) sleeps
    else if env.errno i ≠ EAGAIN then ForkOutcome.fatalExit sleeps
    else if i ≠ FORK_LAPS - 1 then fork_retry_loop env (i + 1) (sleeps + 1)
    else fork_retry_loop env (i + 1) sleeps
  else ForkOutcome.fatalExit sleeps
termination_by FORK_LAPS - i
decreasing_by all_goals omega

/-- `execute_fork` (postfork.cpp), starting at lap 0 with no sleeps
performed.  (The optional draining of background threads precedes the loop
and does not affect its result.) -/
def execute_fork (env : ForkEnv) : ForkOutcome :=
  fork_retry_loop env 0 0

/-- The spawn plan assembled by `fork_actions_make_spawn_properties` on its
success path: the three attribute requests and the file-action list.  The job
is consumed read-only; in particular the builder never writes `j->pgid`. -/
structure SpawnPlan where
  setSigdefault : Bool
  setSigmask : Bool
  setPgroup : Bool
  pgroup : Int
  fileActions : List FdAction
deriving DecidableEq

/-- `fork_actions_make_spawn_properties` (postfork.cpp), success path: reset
signal dispositions and mask, request `POSIX_SPAWN_SETPGROUP` exactly when
the job has job control (pgroup 0 = "new group" when the job's pgid is still
the -2 sentinel), and translate the chain into file actions. -/
def fork_actions_make_spawn_properties (j : Job) (io_chain : List IoData) :
    SpawnPlan :=
  let should_set_process_group_id := j.job_control
  let desired_process_group_id :=
    if j.job_control then (if j.pgid = -2 then 0 else j.pgid) else 0
  { setSigdefault := true
    setSigmask := true
    setPgroup := should_set_process_group_id
    pgroup := desired_process_group_id
    fileActions := spawn_file_actions io_chain }

/-- OS view consumed by `safe_report_exec_error`: the file behind each path
(as a character list, for the shebang inspection), the
`access(path, X_OK) == 0` test, and `sysconf(_SC_ARG_MAX)`. -/
structure ExecErrEnv where
  fileContents : String → Option (List Char)
  executableOk : List Char → Bool
  argMax : Int

/-- The interpreter name on a shebang line: everything after the `#!` marker
up to the end of the first line. -/
def interpLine (s : List Char) : List Char :=
  (s.drop 2).takeWhile (fun c => c ≠ '\n')

/-- Modelled from the spec: `get_interpreter` is defined in exec.cpp, which
is not part of this source file; per the spec it inspects the command file
for an interpreter line ("inspect the file for an interpreter line; if found
and not executable, report the interpreter's name").  Here: when the file
exists and its first line starts with `#!`, the rest of that first line is
the interpreter name. -/
def get_interpreter (contents : Option (List Char)) : Option (List Char) :=
  match contents with
  | none => none
  | some s =>
    if s.take 2 = ['#', '!'] then some (interpLine s)
    else none

/-- The classified diagnostic emitted by `safe_report_exec_error` (each
constructor stands for one of the message branches of the switch). -/
inductive ExecDiag where
  | argListTooLongLimit (sz limit : Nat)
  | argListTooLong (sz : Nat)
  | notExecutableFormat (cmd : String)
  | interpreterNotExecutable (cmd : String) (interp : List Char)
  | doesNotExist (cmd : String)
  | outOfMemory
  | other (e : Int)
deriving DecidableEq

/-- Total byte size of the argv and environment strings, each with its NUL
terminator, as computed by the E2BIG branch. -/
def argvEnvSize (argv envv : List String) : Nat :=
  (argv.map (fun s => s.length + 1)).sum + (envv.map (fun s => s.length + 1)).sum

/-- `safe_report_exec_error` (postfork.cpp): classify the errno of a failed
exec into one diagnostic.  In the ENOENT branch, an interpreter found in the
file that fails the `access(interpreter, X_OK)` test is named; otherwise the
generic does-not-exist message is produced. -/
def safe_report_exec_error (env : ExecErrEnv) (err : Int) (cmd : String)
    (argv envv : List String) : ExecDiag :=
  if err = E2BIG then
    let sz := argvEnvSize argv envv
    if 0 < env.argMax then ExecDiag.argListTooLongLimit sz env.argMax.toNat
    else ExecDiag.argListTooLong sz
  else if err = ENOEXEC then ExecDiag.notExecutableFormat cmd
  else if err = ENOENT then
    match get_interpreter (env.fileContents cmd) with
    | some interp =>
      if env.executableOk interp then ExecDiag.doesNotExist cmd
      else ExecDiag.interpreterNotExecutable cmd interp
    | none => ExecDiag.doesNotExist cmd
  else if err = ENOMEM then ExecDiag.outOfMemory
  else ExecDiag.other err

/-- OS view consumed by `do_builtin_io`: results and errnos of the
`write_loop` calls on stdout and stderr. -/
structure BuiltinIoEnv where
  outRes : Int
  outErrno : Int
  errRes : Int
  errErrno : Int

/-- Result of `do_builtin_io`: the boolean return, the value left in `errno`
on return, and whether any diagnostic logging was performed.  The only
logging calls in the function body sit in the non-EPIPE stdout failure
branch; the stderr failure branch contains none. -/
structure BuiltinIoResult where
  success : Bool
  finalErrno : Int
  logged : Bool
deriving DecidableEq

/-- `do_builtin_io` (postfork.cpp): best-effort write of the builtin's stdout
and stderr buffers.  `outPresent`/`errPresent` model the non-null buffer
pointers.  Each failing write overwrites `saved_errno`; `errno` is set to
`saved_errno` before returning. -/
def do_builtin_io (env : BuiltinIoEnv) (outPresent : Bool) (outlen : Nat)
    (errPresent : Bool) (errlen : Nat) : BuiltinIoResult :=
  let saved0 : Int := 0
  let outFail := outPresent ∧ outlen ≠ 0 ∧ env.outRes < 0
  let saved1 := if outFail then env.outErrno else saved0
  let logged := if outFail ∧ env.outErrno ≠ EPIPE then true else false
  let success1 := if outFail then false else true
  let errFail := errPresent ∧ errlen ≠ 0 ∧ env.errRes < 0
  let saved2 := if errFail then env.errErrno else saved1
  let success2 := if errFail then false else success1
  { success := success2, finalErrno := saved2, logged := logged }

/-! ## Theorems -/

/-- C8: a `DuplicateFd` chain entry whose target fd equals its source fd is
skipped entirely by both the fork-path applier (no syscall is performed: the
result and trace are those of the remaining chain) and the spawn-plan builder
(no file action is emitted for it). -/
theorem c8_selfdup_skipped (env : ChildIoEnv) (idx : Nat) (f : Int)
    (rest : List IoData) :
    handle_child_io_aux env idx (IoData.fdDup f f :: rest) =
      handle_child_io_aux env (idx + 1) rest
    ∧ spawn_file_actions (IoData.fdDup f f :: rest) = spawn_file_actions rest := by
  constructor
  · simp [handle_child_io_aux]
  · simp [spawn_file_actions, spawn_entry_actions]

/-- C2: when `setup_child_process` is called with a non-null process context
and the io-chain application fails, the child is terminated through
`exit_without_destructors` with the nonzero status 1 and the function never
returns; with a null process context the same failure instead returns -1
without exiting. -/
theorem c2_fatal_exit_on_io_failure (env : ChildIoEnv) (p : Process)
    (io_chain : List IoData)
    (hfail : (handle_child_io env io_chain).fst ≠ 0) :
    (setup_child_process env (some p) io_chain).exited = some 1
    ∧ (1 : Int) ≠ 0
    ∧ (setup_child_process env none io_chain).exited = none
    ∧ (setup_child_process env none io_chain).ret = -1 := by
  refine ⟨?_, by norm_num, ?_, ?_⟩ <;> simp [setup_child_process, hfail]

/-- C2 witness: a chain whose single `DuplicateFd` entry fails to duplicate
(dup2 returns -1) makes the non-null-context call exit with status 1 and the
null-context call return -1. -/
theorem c2_fatal_exit_on_io_failure_witness :
    (setup_child_process ⟨fun _ _ => 0, fun _ => -1, fun _ _ _ => -1⟩
        (some ⟨5⟩) [IoData.fdDup 1 2]).exited = some 1
    ∧ (1 : Int) ≠ 0
    ∧ (setup_child_process ⟨fun _ _ => 0, fun _ => -1, fun _ _ _ => -1⟩
        none [IoData.fdDup 1 2]).exited = none
    ∧ (setup_child_process ⟨fun _ _ => 0, fun _ => -1, fun _ _ _ => -1⟩
        none [IoData.fdDup 1 2]).ret = -1 :=
  c2_fatal_exit_on_io_failure ⟨fun _ _ => 0, fun _ => -1, fun _ _ _ => -1⟩
    ⟨5⟩ [IoData.fdDup 1 2] (by decide)

/-- C10: `setup_child_process` resets the signal dispositions only when the
whole io chain applied successfully, and the null-context failure path
returns -1 with the dispositions untouched. -/
theorem c10_signal_reset_only_after_io_success (env : ChildIoEnv)
    (p : Option Process) (io_chain : List IoData) :
    ((setup_child_process env p io_chain).signalsReset = true →
      (handle_child_io env io_chain).fst = 0)
    ∧ ((handle_child_io env io_chain).fst ≠ 0 →
      setup_child_process env none io_chain =
        { exited := none, ret := -1, signalsReset := false }) := by
  constructor
  · intro h
    by_cases hc : (handle_child_io env io_chain).fst = 0
    · exact hc
    · cases p <;> simp [setup_child_process, hc] at h
  · intro hc
    simp [setup_child_process, hc]

/-- C10 witness: with a failing dup2, the null-context call returns -1
without resetting the signal dispositions. -/
theorem c10_signal_reset_only_after_io_success_witness :
    setup_child_process ⟨fun _ _ => 0, fun _ => -1, fun _ _ _ => -1⟩
        none [IoData.fdDup 3 4] =
      { exited := none, ret := -1, signalsReset := false } :=
  (c10_signal_reset_only_after_io_success
      ⟨fun _ _ => 0, fun _ => -1, fun _ _ _ => -1⟩ none [IoData.fdDup 3 4]).2
    (by decide)

/-- C6: with job control enabled and the job's pgid still the unassigned
sentinel -2, a completed `child_set_group` call leaves the job's pgid equal
to the calling process's pid; with job control disabled, no `setpgid` join is
attempted and the job's pgid is recorded as the current process group. -/
theorem c6_child_set_group_pgid (env : ChildGroupEnv) (fuel : Nat) (j : Job)
    (p : Process) :
    (j.job_control = true → j.pgid = -2 →
      ∀ r, child_set_group env fuel j p = some r → r.job.pgid = p.pid)
    ∧ (j.job_control = false →
      child_set_group env fuel j p =
        some { job := { j with pgid := env.getpgrp }, retval := true,
               setpgidCalls := 0 }) := by
  constructor
  · intro hjc hpg r hr
    simp only [child_set_group, hjc, if_true, hpg] at hr
    cases hsr : setpgid_retry env 0 fuel with
    | none => rw [hsr] at hr; simp at hr
    | some v =>
      rw [hsr] at hr
      simp only [Option.some.injEq] at hr
      rw [← hr]
  · intro hjc
    simp [child_set_group, hjc]

/-- C6 witness: a job with pgid -2 under job control adopts the child pid 42
when the first setpgid attempt succeeds; without job control the same job
records the current process group 77 with no setpgid call. -/
theorem c6_child_set_group_pgid_witness :
    ((child_set_group ⟨fun _ => (0, 0), fun _ => 42, 77⟩ 1
        ⟨-2, true, false, false, 1⟩ ⟨42⟩).map (fun r => r.job.pgid) = some 42)
    ∧ child_set_group ⟨fun _ => (0, 0), fun _ => 42, 77⟩ 1
        ⟨-2, false, false, false, 1⟩ ⟨42⟩ =
      some { job := ⟨77, false, false, false, 1⟩, retval := true,
             setpgidCalls := 0 } := by
  constructor
  · have h := (c6_child_set_group_pgid ⟨fun _ => (0, 0), fun _ => 42, 77⟩ 1
      ⟨-2, true, false, false, 1⟩ ⟨42⟩).1 rfl rfl
    cases hc : child_set_group ⟨fun _ => (0, 0), fun _ => 42, 77⟩ 1
        ⟨-2, true, false, false, 1⟩ ⟨42⟩ with
    | none => exact absurd hc (by decide)
    | some r => simp [h r hc]
  · exact (c6_child_set_group_pgid ⟨fun _ => (0, 0), fun _ => 42, 77⟩ 1
      ⟨-2, false, false, false, 1⟩ ⟨42⟩).2 rfl

/-- C7: for a job with the terminal and foreground flags set, when the
terminal's current foreground process group already equals the job's pgid as
established by `set_child_group`, no terminal transfer is performed and the
call returns success; the transfer collaborator is invoked only when the
terminal does not yet belong to that pgid. -/
theorem c7_terminal_handoff_idempotent (env : ParentGroupEnv) (j : Job)
    (child_pid : Int) (ht : j.terminal = true) (hf : j.foreground = true) :
    (env.tcgetpgrp = (set_child_group env j child_pid).job.pgid →
      (set_child_group env j child_pid).transferCalled = false
      ∧ (set_child_group env j child_pid).retval = true)
    ∧ ((set_child_group env j child_pid).transferCalled = true →
      env.tcgetpgrp ≠ (set_child_group env j child_pid).job.pgid) := by
  simp only [set_child_group]
  by_cases hjc : j.job_control <;> by_cases hpg : j.pgid = -2 <;>
    by_cases htc : env.tcgetpgrp = (if j.job_control then
        (if j.pgid = -2 then { j with pgid := child_pid } else j)
      else { j with pgid := env.getpgrp }).pgid <;>
    simp_all

/-- C7 witness: a foreground terminal job whose pgid 9 already owns the
terminal gets no transfer call and a success return. -/
theorem c7_terminal_handoff_idempotent_witness :
    (set_child_group ⟨5, 9, false⟩ ⟨9, true, true, true, 1⟩ 9).transferCalled = false
    ∧ (set_child_group ⟨5, 9, false⟩ ⟨9, true, true, true, 1⟩ 9).retval = true :=
  (c7_terminal_handoff_idempotent ⟨5, 9, false⟩ ⟨9, true, true, true, 1⟩ 9
    rfl rfl).1 (by decide)

/-- C9: under ENOENT, when the command file begins with a shebang line whose
interpreter fails the executability test, `safe_report_exec_error` reports
the interpreter-not-executable diagnostic naming that interpreter; when the
file has no shebang line, does not exist, or its interpreter is executable,
it reports the generic does-not-exist diagnostic. -/
theorem c9_enoent_interpreter_diagnosis (env : ExecErrEnv) (cmd : String)
    (s : List Char) (argv envv : List String) :
    (env.fileContents cmd = some s → s.take 2 = ['#', '!'] →
      env.executableOk (interpLine s) = false →
      safe_report_exec_error env ENOENT cmd argv envv =
        ExecDiag.interpreterNotExecutable cmd (interpLine s))
    ∧ (env.fileContents cmd = some s → s.take 2 ≠ ['#', '!'] →
      safe_report_exec_error env ENOENT cmd argv envv = ExecDiag.doesNotExist cmd)
    ∧ (env.fileContents cmd = none →
      safe_report_exec_error env ENOENT cmd argv envv = ExecDiag.doesNotExist cmd)
    ∧ (env.fileContents cmd = some s → s.take 2 = ['#', '!'] →
      env.executableOk (interpLine s) = true →
      safe_report_exec_error env ENOENT cmd argv envv = ExecDiag.doesNotExist cmd) := by
  refine ⟨?_, ?_, ?_, ?_⟩ <;> intro hfc
  · intro hsb hex
    simp [safe_report_exec_error, ENOENT, E2BIG, ENOEXEC, get_interpreter,
      hfc, hsb, hex]
  · intro hsb
    simp [safe_report_exec_error, ENOENT, E2BIG, ENOEXEC, get_interpreter,
      hfc, hsb]
  · simp [safe_report_exec_error, ENOENT, E2BIG, ENOEXEC, get_interpreter, hfc]
  · intro hsb hex
    simp [safe_report_exec_error, ENOENT, E2BIG, ENOEXEC, get_interpreter,
      hfc, hsb, hex]

/-- C9 witness: a file starting with the shebang line `#!/bin/nonexistent`
whose interpreter is not executable yields the interpreter diagnostic, and a
missing file yields the generic diagnostic. -/
theorem c9_enoent_interpreter_diagnosis_witness :
    safe_report_exec_error
        ⟨fun _ => some ('#' :: '!' :: '/' :: 'x' :: '\n' :: []),
         fun _ => false, 0⟩ ENOENT "cmd" [] [] =
      ExecDiag.interpreterNotExecutable "cmd"
        (interpLine ('#' :: '!' :: '/' :: 'x' :: '\n' :: []))
    ∧ safe_report_exec_error ⟨fun _ => none, fun _ => false, 0⟩
        ENOENT "cmd" [] [] = ExecDiag.doesNotExist "cmd" :=
  ⟨(c9_enoent_interpreter_diagnosis
      ⟨fun _ => some ('#' :: '!' :: '/' :: 'x' :: '\n' :: []),
       fun _ => false, 0⟩ "cmd" ('#' :: '!' :: '/' :: 'x' :: '\n' :: []) [] []).1
      rfl (by decide) rfl,
   (c9_enoent_interpreter_diagnosis ⟨fun _ => none, fun _ => false, 0⟩
      "cmd" [] [] []).2.2.1 rfl⟩

/-- C3 counterexample: when both writes fail (stdout with EACCES, stderr with
EPIPE), the returned errno is the stderr failure's value EPIPE, not the first
failure's EACCES; and a stderr-only failure with the non-EPIPE error EACCES
performs no diagnostic logging even though the call reports failure. -/
theorem c3_counterexample :
    ((do_builtin_io ⟨-1, EACCES, -1, EPIPE⟩ true 1 true 1).finalErrno = EPIPE
      ∧ ¬ (do_builtin_io ⟨-1, EACCES, -1, EPIPE⟩ true 1 true 1).finalErrno = EACCES)
    ∧ ((do_builtin_io ⟨0, 0, -1, EACCES⟩ true 1 true 1).logged = false
      ∧ (do_builtin_io ⟨0, 0, -1, EACCES⟩ true 1 true 1).success = false) := by
  decide

/-- C3 (amended): `do_builtin_io` returns true exactly when both writes fully
succeed; diagnostic logging happens exactly for a stdout failure whose errno
is not EPIPE (stderr failures are never logged); and on return errno holds
the most recent failure's error value — the stderr failure's if stderr
failed, otherwise the stdout failure's, otherwise 0. -/
theorem c3_amended_builtin_io (env : BuiltinIoEnv) (outPresent : Bool)
    (outlen : Nat) (errPresent : Bool) (errlen : Nat) :
    ((do_builtin_io env outPresent outlen errPresent errlen).success = true ↔
      ¬ (outPresent = true ∧ outlen ≠ 0 ∧ env.outRes < 0)
      ∧ ¬ (errPresent = true ∧ errlen ≠ 0 ∧ env.errRes < 0))
    ∧ ((do_builtin_io env outPresent outlen errPresent errlen).logged = true ↔
      (outPresent = true ∧ outlen ≠ 0 ∧ env.outRes < 0) ∧ env.outErrno ≠ EPIPE)
    ∧ (do_builtin_io env outPresent outlen errPresent errlen).finalErrno =
      (if errPresent = true ∧ errlen ≠ 0 ∧ env.errRes < 0 then env.errErrno
       else if outPresent = true ∧ outlen ≠ 0 ∧ env.outRes < 0 then env.outErrno
       else 0) := by
  simp only [do_builtin_io]
  by_cases ho : outPresent = true ∧ outlen ≠ 0 ∧ env.outRes < 0 <;>
    by_cases he : errPresent = true ∧ errlen ≠ 0 ∧ env.errRes < 0 <;>
    by_cases hp : env.outErrno = EPIPE <;>
    simp [ho, he, hp]

/-- C4 counterexample: `set_child_group` on a job without job control whose
pgid already holds the real value 100 overwrites it with the current process
group 200, so the pgid field is not written exactly once from the -2
sentinel. -/
theorem c4_counterexample :
    (set_child_group ⟨200, 0, true⟩ ⟨100, false, false, false, 1⟩ 7).job.pgid = 200
    ∧ (100 : Int) ≠ -2 ∧ (100 : Int) ≠ 200 := by
  decide

/-- The job returned by a completed `child_set_group` call: pgid assignment
is independent of the setpgid loop's outcome. -/
lemma child_set_group_job (env : ChildGroupEnv) (fuel : Nat) (j : Job)
    (p : Process) (r : ChildSetGroupResult)
    (h : child_set_group env fuel j p = some r) :
    r.job = (if j.job_control then
        (if j.pgid = -2 then { j with pgid := p.pid } else j)
      else { j with pgid := env.getpgrp }) := by
  by_cases hjc : j.job_control = true
  · simp only [child_set_group, hjc, if_true] at h
    cases hsr : setpgid_retry env 0 fuel with
    | none => rw [hsr] at h; simp at h
    | some v =>
      rw [hsr] at h
      simp only [Option.some.injEq] at h
      rw [← h, hjc]
      simp
  · simp only [child_set_group, hjc, Bool.not_eq_true] at h
    rw [Bool.not_eq_true] at hjc
    simp only [hjc, Bool.false_eq_true, if_false, Option.some.injEq] at h ⊢
    rw [← h]

/-- The job returned by `set_child_group`. -/
lemma set_child_group_job (env : ParentGroupEnv) (j : Job) (child_pid : Int) :
    (set_child_group env j child_pid).job =
      (if j.job_control then
        (if j.pgid = -2 then { j with pgid := child_pid } else j)
      else { j with pgid := env.getpgrp }) := by
  simp only [set_child_group]
  split_ifs <;> rfl

/-- C4 (amended): under job control both negotiator halves write the job's
pgid only when it is the -2 sentinel (an already-assigned pgid is never
overwritten, and the sentinel is replaced by the child's pid); with job
control disabled, each call unconditionally records the current process
group, possibly overwriting an assigned value.  (The spawn-attributes
builder consumes the job read-only and never writes pgid.) -/
theorem c4_amended_pgid_mutation (cenv : ChildGroupEnv) (penv : ParentGroupEnv)
    (fuel : Nat) (j : Job) (p : Process) (child_pid : Int) :
    (j.job_control = true → j.pgid ≠ -2 →
      (∀ r, child_set_group cenv fuel j p = some r → r.job.pgid = j.pgid)
      ∧ (set_child_group penv j child_pid).job.pgid = j.pgid)
    ∧ (j.job_control = true → j.pgid = -2 →
      (∀ r, child_set_group cenv fuel j p = some r → r.job.pgid = p.pid)
      ∧ (set_child_group penv j child_pid).job.pgid = child_pid)
    ∧ (j.job_control = false →
      (∀ r, child_set_group cenv fuel j p = some r → r.job.pgid = cenv.getpgrp)
      ∧ (set_child_group penv j child_pid).job.pgid = penv.getpgrp) := by
  refine ⟨fun hjc hpg => ⟨fun r hr => ?_, ?_⟩,
          fun hjc hpg => ⟨fun r hr => ?_, ?_⟩,
          fun hjc => ⟨fun r hr => ?_, ?_⟩⟩ <;>
    first
    | (rw [child_set_group_job cenv fuel j p r hr]; simp [hjc, hpg])
    | (rw [set_child_group_job]; simp [hjc, hpg])
    | (rw [child_set_group_job cenv fuel j p r hr]; simp [hjc])
    | (rw [set_child_group_job]; simp [hjc])

/-- C4 amended witness: with job control and the assigned pgid 9, both
halves leave the pgid at 9. -/
theorem c4_amended_pgid_mutation_witness :
    ((∀ r, child_set_group ⟨fun _ => (0, 0), fun _ => 9, 77⟩ 1
        ⟨9, true, false, false, 1⟩ ⟨42⟩ = some r → r.job.pgid = 9)
      ∧ (set_child_group ⟨77, 9, true⟩ ⟨9, true, false, false, 1⟩ 42).job.pgid = 9) :=
  (c4_amended_pgid_mutation ⟨fun _ => (0, 0), fun _ => 9, 77⟩ ⟨77, 9, true⟩ 1
    ⟨9, true, false, false, 1⟩ ⟨42⟩ 42).1 rfl (by decide)

/-- A lap whose fork call returns a pid ends the loop with that pid. -/
lemma fork_retry_loop_success (env : ForkEnv) (i sleeps : Nat)
    (hi : i < FORK_LAPS) (h : 0 ≤ env.res i) :
    fork_retry_loop env i sleeps = ForkOutcome.ret (env.res i) sleeps := by
  rw [fork_retry_loop]
  simp [hi, h]

/-- A non-final lap failing with EAGAIN sleeps once and retries. -/
lemma fork_retry_loop_eagain_mid (env : ForkEnv) (i sleeps : Nat)
    (hi : i < FORK_LAPS - 1) (hres : env.res i < 0)
    (herr : env.errno i = EAGAIN) :
    fork_retry_loop env i sleeps = fork_retry_loop env (i + 1) (sleeps + 1) := by
  rw [fork_retry_loop]
  have h1 : i < FORK_LAPS := by unfold FORK_LAPS at hi ⊢; omega
  have h2 : ¬ 0 ≤ env.res i := by omega
  have h3 : i ≠ FORK_LAPS - 1 := by omega
  simp [h1, h2, herr, h3]

/-- The final lap failing with EAGAIN does not sleep; the loop then exits and
the whole shell is terminated. -/
lemma fork_retry_loop_eagain_last (env : ForkEnv) (sleeps : Nat)
    (hres : env.res (FORK_LAPS - 1) < 0)
    (herr : env.errno (FORK_LAPS - 1) = EAGAIN) :
    fork_retry_loop env (FORK_LAPS - 1) sleeps = ForkOutcome.fatalExit sleeps := by
  have h1 : FORK_LAPS - 1 < FORK_LAPS := by unfold FORK_LAPS; omega
  have h2 : ¬ 0 ≤ env.res (FORK_LAPS - 1) := by omega
  have h3 : ¬ FORK_LAPS - 1 + 1 < FORK_LAPS := by unfold FORK_LAPS; omega
  have hstep : fork_retry_loop env (FORK_LAPS - 1 + 1) sleeps =
      ForkOutcome.fatalExit sleeps := by
    rw [fork_retry_loop]; simp [h3]
  rw [fork_retry_loop]
  simp [h1, h2, herr, hstep]

/-- A lap failing with a non-EAGAIN error breaks out of the loop and the
whole shell is terminated, with no further sleep. -/
lemma fork_retry_loop_break (env : ForkEnv) (i sleeps : Nat)
    (hi : i < FORK_LAPS) (hres : env.res i < 0) (herr : env.errno i ≠ EAGAIN) :
    fork_retry_loop env i sleeps = ForkOutcome.fatalExit sleeps := by
  rw [fork_retry_loop]
  have h2 : ¬ 0 ≤ env.res i := by omega
  simp [hi, h2, herr]

/-- Running `d` consecutive EAGAIN-failing non-final laps advances the lap
index and the sleep count by `d`. -/
lemma fork_retry_loop_run (env : ForkEnv) :
    ∀ (d i sleeps : Nat), i + d ≤ FORK_LAPS - 1 →
    (∀ n, n < d → env.res (i + n) < 0 ∧ env.errno (i + n) = EAGAIN) →
    fork_retry_loop env i sleeps = fork_retry_loop env (i + d) (sleeps + d) := by
  intro d
  induction d with
  | zero => intro i s _ _; simp
  | succ d ih =>
    intro i s hle hall
    have h0 := hall 0 (by omega)
    rw [fork_retry_loop_eagain_mid env i s (by omega)
      (by simpa using h0.1) (by simpa using h0.2)]
    rw [ih (i + 1) (s + 1) (by omega) ?_]
    · congr 1 <;> omega
    · intro n hn
      have e : i + 1 + n = i + (n + 1) := by omega
      rw [e]
      exact hall (n + 1) (by omega)

/-- C5: starting from lap 0, if the first `k` fork calls (k below the retry
bound 5) fail with EAGAIN and the next one returns a pid, `execute_fork`
returns that pid having slept exactly `k` times (none on the successful
lap); if all 5 calls fail with EAGAIN the shell is terminated after 4 sleeps
(none on the final lap); and if, after some EAGAIN failures, a call fails
with a non-EAGAIN error, the shell is terminated at once and the function
never returns. -/
theorem c5_execute_fork_retry (env : ForkEnv) (k : Nat) :
    (k < FORK_LAPS → (∀ n, n < k → env.res n < 0 ∧ env.errno n = EAGAIN) →
      0 ≤ env.res k → execute_fork env = ForkOutcome.ret (env.res k) k)
    ∧ ((∀ n, n < FORK_LAPS → env.res n < 0 ∧ env.errno n = EAGAIN) →
      execute_fork env = ForkOutcome.fatalExit (FORK_LAPS - 1))
    ∧ (k < FORK_LAPS → (∀ n, n < k → env.res n < 0 ∧ env.errno n = EAGAIN) →
      env.res k < 0 → env.errno k ≠ EAGAIN →
      execute_fork env = ForkOutcome.fatalExit k) := by
  refine ⟨fun hk hall hres => ?_, fun hall => ?_, fun hk hall hres herr => ?_⟩
  · rw [execute_fork, fork_retry_loop_run env k 0 0 (by unfold FORK_LAPS at hk ⊢; omega)
      (by simpa using hall)]
    simpa using fork_retry_loop_success env k k hk hres
  · rw [execute_fork, fork_retry_loop_run env (FORK_LAPS - 1) 0 0 (by omega)
      (by intro n hn
          simp only [Nat.zero_add]
          exact hall n (by unfold FORK_LAPS at hn ⊢; omega))]
    simpa using fork_retry_loop_eagain_last env (FORK_LAPS - 1)
      (by simpa using (hall (FORK_LAPS - 1) (by unfold FORK_LAPS; omega)).1)
      (by simpa using (hall (FORK_LAPS - 1) (by unfold FORK_LAPS; omega)).2)
  · rw [execute_fork, fork_retry_loop_run env k 0 0 (by unfold FORK_LAPS at hk ⊢; omega)
      (by simpa using hall)]
    simpa using fork_retry_loop_break env k k hk hres herr

/-- C5 witness: with EAGAIN failures on the first two laps and pid 7 on the
third, `execute_fork` returns pid 7 after exactly 2 sleeps. -/
theorem c5_execute_fork_retry_witness :
    execute_fork ⟨fun i => if i < 2 then -1 else 7, fun _ => EAGAIN⟩ =
      ForkOutcome.ret 7 2 := by
  have h := (c5_execute_fork_retry
      ⟨fun i => if i < 2 then -1 else 7, fun _ => EAGAIN⟩ 2).1
    (by unfold FORK_LAPS; omega) (by decide) (by norm_num)
  simpa using h

lemma applyActs_nil (t : FdTable) : applyActs [] t = t := rfl

lemma applyActs_cons (a : FdAction) (as : List FdAction) (t : FdTable) :
    applyActs (a :: as) t = applyActs as (applyAct a t) := rfl

lemma applyActs_append (xs ys : List FdAction) (t : FdTable) :
    applyActs (xs ++ ys) t = applyActs ys (applyActs xs t) := by
  simp [applyActs, List.foldl_append]

/-- The descriptor-table effects the fork-path applier produces for one
chain entry when every syscall succeeds (open returning the fresh slot
1000). -/
def perForkEffects : IoData → List FdAction
  | .close fd => [FdAction.close fd]
  | .file fd filename flags =>
      if fd = 1000 then [FdAction.openA 1000 filename flags]
      else [FdAction.openA 1000 filename flags, FdAction.close fd,
            FdAction.dup2 1000 fd, FdAction.close 1000]
  | .fdDup fd old_fd =>
      if fd = old_fd then []
      else [FdAction.close fd, FdAction.dup2 old_fd fd]
  | .pipe fd pfd0 pfd1 is_input _ =>
      FdAction.dup2 (if is_input then pfd0 else pfd1) fd ::
        ((if 0 ≤ pfd0 then [FdAction.close pfd0] else []) ++
         (if 0 ≤ pfd1 then [FdAction.close pfd1] else []))

lemma goodEntry_close (fd : Int) (h : goodEntry (IoData.close fd) = true) :
    0 ≤ fd ∧ fd < 1000 := by
  simp [goodEntry, entryFds] at h
  tauto

lemma goodEntry_file (fd : Int) (filename : String) (flags : Nat)
    (h : goodEntry (IoData.file fd filename flags) = true) :
    0 ≤ fd ∧ fd < 1000 := by
  simp [goodEntry, entryFds] at h
  tauto

lemma goodEntry_fdDup (fd old_fd : Int)
    (h : goodEntry (IoData.fdDup fd old_fd) = true) :
    (0 ≤ fd ∧ fd < 1000) ∧ (0 ≤ old_fd ∧ old_fd < 1000) := by
  simp [goodEntry, entryFds] at h
  tauto

lemma goodEntry_pipe (fd pfd0 pfd1 : Int) (is_input isBuffer : Bool)
    (h : goodEntry (IoData.pipe fd pfd0 pfd1 is_input isBuffer) = true) :
    ((0 ≤ fd ∧ fd < 1000) ∧ (0 ≤ pfd0 ∧ pfd0 < 1000) ∧ (0 ≤ pfd1 ∧ pfd1 < 1000))
    ∧ is_input = false := by
  cases is_input
  · simp [goodEntry, entryFds] at h
    refine ⟨⟨?_, ?_, ?_⟩, rfl⟩ <;> tauto
  · simp [goodEntry, entryFds] at h

/-- Under `happyEnv`, the applier's effect trace decomposes entrywise. -/
lemma fork_trace_decompose (e : IoData) (rest : List IoData) (idx : Nat)
    (hge : goodEntry e = true) :
    effectsOfTrace (handle_child_io_aux happyEnv idx (e :: rest)).snd =
      perForkEffects e ++
        effectsOfTrace (handle_child_io_aux happyEnv (idx + 1) rest).snd := by
  cases e with
  | close fd =>
    simp [handle_child_io_aux, happyEnv, effectsOfTrace, perForkEffects]
  | file fd filename flags =>
    have hb := goodEntry_file fd filename flags hge
    have h1 : ¬ ((1000 : Int) < 0) := by omega
    have h2 : (1000 : Int) ≠ fd := by omega
    have h3 : fd ≠ (-1 : Int) := by omega
    have h4 : fd ≠ (1000 : Int) := by omega
    simp [handle_child_io_aux, happyEnv, h1, h2, h3, effectsOfTrace,
      perForkEffects, h4]
  | fdDup fd old_fd =>
    by_cases heq : fd = old_fd
    · simp [handle_child_io_aux, heq, perForkEffects]
    · have hb := goodEntry_fdDup fd old_fd hge
      have h3 : fd ≠ (-1 : Int) := by omega
      simp [handle_child_io_aux, happyEnv, heq, h3, effectsOfTrace,
        perForkEffects]
  | pipe fd pfd0 pfd1 is_input isBuffer =>
    have hb := goodEntry_pipe fd pfd0 pfd1 is_input isBuffer hge
    have hin : is_input = false := hb.2
    have h0 : (0 : Int) ≤ pfd0 := hb.1.2.1.1
    have h1 : (0 : Int) ≤ pfd1 := hb.1.2.2.1
    simp [handle_child_io_aux, happyEnv, hin, h0, h1, effectsOfTrace,
      perForkEffects]

/-- For comparable entries, the spawn-plan file actions and the fork-path
effects act identically on any table whose fresh slot 1000 is closed. -/
lemma per_entry_eq (e : IoData) (t : FdTable) (hge : goodEntry e = true)
    (ht : t 1000 = none) :
    applyActs (spawn_entry_actions e) t = applyActs (perForkEffects e) t := by
  cases e with
  | close fd => rfl
  | file fd filename flags =>
    have hb := goodEntry_file fd filename flags hge
    have h4 : fd ≠ (1000 : Int) := by omega
    have h4s : (1000 : Int) ≠ fd := by omega
    simp only [spawn_entry_actions, perForkEffects, if_neg h4]
    funext x
    by_cases hx : x = fd <;> by_cases hx2 : x = (1000 : Int) <;>
      simp_all [applyActs, applyAct]
  | fdDup fd old_fd =>
    by_cases heq : fd = old_fd
    · simp [spawn_entry_actions, perForkEffects, heq]
    · have heqs : old_fd ≠ fd := fun hh => heq hh.symm
      simp only [spawn_entry_actions, perForkEffects, if_neg heq]
      funext x
      by_cases hx : x = fd <;> simp_all [applyActs, applyAct]
  | pipe fd pfd0 pfd1 is_input isBuffer =>
    have hb := goodEntry_pipe fd pfd0 pfd1 is_input isBuffer hge
    have hin : is_input = false := hb.2
    have h0 : (0 : Int) ≤ pfd0 := hb.1.2.1.1
    have h1 : (0 : Int) ≤ pfd1 := hb.1.2.2.1
    simp [spawn_entry_actions, perForkEffects, hin, h0, h1]

/-- Applying a comparable entry's spawn actions keeps the fresh slot 1000
closed. -/
lemma per_entry_fresh (e : IoData) (t : FdTable) (hge : goodEntry e = true)
    (ht : t 1000 = none) :
    applyActs (spawn_entry_actions e) t 1000 = none := by
  cases e with
  | close fd =>
    simp only [spawn_entry_actions, applyActs, List.foldl, applyAct]
    split_ifs <;> simp [ht]
  | file fd filename flags =>
    have hb := goodEntry_file fd filename flags hge
    have h4 : (1000 : Int) ≠ fd := by omega
    simp [spawn_entry_actions, applyActs, applyAct, h4, ht]
  | fdDup fd old_fd =>
    by_cases heq : fd = old_fd
    · simpa [spawn_entry_actions, heq, applyActs] using ht
    · have hb := goodEntry_fdDup fd old_fd hge
      have h4 : (1000 : Int) ≠ fd := by omega
      simp [spawn_entry_actions, heq, applyActs, applyAct, h4, ht]
  | pipe fd pfd0 pfd1 is_input isBuffer =>
    have hb := goodEntry_pipe fd pfd0 pfd1 is_input isBuffer hge
    have h4 : (1000 : Int) ≠ fd := by have := hb.1.1; omega
    have h5 : (1000 : Int) ≠ pfd0 := by have := hb.1.2.1; omega
    have h6 : (1000 : Int) ≠ pfd1 := by have := hb.1.2.2; omega
    cases is_input <;>
      simp [spawn_entry_actions, applyActs, applyAct, h4, h5, h6, ht]

/-- Chainwise equivalence of the spawn file-action list and the fork-path
effects, for chains of comparable entries, at any applier start index. -/
lemma c1_helper (chain : List IoData) :
    ∀ (idx : Nat) (t : FdTable), (∀ e ∈ chain, goodEntry e = true) →
    t 1000 = none →
    applyActs (spawn_file_actions chain) t =
      applyActs (effectsOfTrace (handle_child_io_aux happyEnv idx chain).snd) t := by
  induction chain with
  | nil => intro idx t _ _; rfl
  | cons e rest ih =>
    intro idx t hgood ht
    have hge : goodEntry e = true := hgood e (List.mem_cons_self e rest)
    have hgrest : ∀ x ∈ rest, goodEntry x = true :=
      fun x hx => hgood x (List.mem_cons_of_mem e hx)
    rw [fork_trace_decompose e rest idx hge]
    simp only [spawn_file_actions]
    rw [applyActs_append, applyActs_append, ← per_entry_eq e t hge ht]
    exact ih (idx + 1) (applyActs (spawn_entry_actions e) t) hgrest
      (per_entry_fresh e t hge ht)

/-- C1 counterexample: for the input-end pipe entry
`PipeEnd(fd=0, pair=(3,4), is_input)`, the fork-path applier closes both
pipe fds but the spawn plan closes only fd 3, so on a table where every
descriptor is initially open the two disagree at fd 4: the plan leaves it
open. -/
theorem c1_counterexample :
    applyActs (spawn_file_actions [IoData.pipe 0 3 4 true false])
        (fun fd => some (FdObj.origObj fd)) 4 ≠
      applyActs (fork_effects [IoData.pipe 0 3 4 true false])
        (fun fd => some (FdObj.origObj fd)) 4 := by
  decide

/-- C1 (amended): for every IoChain whose entries mention only valid
descriptors (non-negative, below the fresh temporary slot) and whose
`PipeEnd` entries are all output ends, the spawn-plan file-action list has
the same descriptor-table effect as the fork-path applier (for output ends
both paths duplicate the write half and then close both pipe fds; for an
input end the plan closes only the read half, diverging from the applier —
see the counterexample). -/
theorem c1_amended_spawn_plan_effect (chain : List IoData)
    (hgood : ∀ e ∈ chain, goodEntry e = true) (t : FdTable)
    (ht : t 1000 = none) :
    applyActs (spawn_file_actions chain) t = applyActs (fork_effects chain) t :=
  c1_helper chain 0 t hgood ht

/-- C1 amended witness: a chain of an output-end pipe entry, a file
redirection, a descriptor duplication and a close, applied to a table with
every ordinary descriptor open, yields identical tables along both paths. -/
theorem c1_amended_spawn_plan_effect_witness :
    applyActs (spawn_file_actions
        [IoData.pipe 1 3 4 false false, IoData.file 2 "out" 577,
         IoData.fdDup 5 6, IoData.close 7])
        (fun fd => if fd = 1000 then none else some (FdObj.origObj fd)) =
      applyActs (fork_effects
        [IoData.pipe 1 3 4 false false, IoData.file 2 "out" 577,
         IoData.fdDup 5 6, IoData.close 7])
        (fun fd => if fd = 1000 then none else some (FdObj.origObj fd)) :=
  c1_amended_spawn_plan_effect
    [IoData.pipe 1 3 4 false false, IoData.file 2 "out" 577,
     IoData.fdDup 5 6, IoData.close 7]
    (by decide) (fun fd => if fd = 1000 then none else some (FdObj.origObj fd))
    (by simp)

end Postfork
